import Mathlib

/-!
# ComputeBloomRT: the bloom pass graph and its manager

A shallow embedding of `Source/ComputeBloomRT/Private/ComputeBloomComponent.cpp`
and `Source/ComputeBloomRT/Public/ComputeBloomComponent.h`.

Modelling conventions.

* A pointer is an `Option`: `nullptr` is `none`, and a non-null pointer is the state of
  the pointee when `Execute_RenderThread` dereferences it.
* Texture extents, mip counts and mip levels are natural numbers. `Extent.X >> MipLevel`
  is the shift of a non-negative `int32`, which is the natural-number shift whenever
  `MipLevel < 32`; the validation of `Execute_RenderThread` makes `NumMips - 1` free of
  wrap-around.
* The two `float` values the code handles are modelled exactly, as rationals: the radius
  is only copied, and the texel size is the reciprocal of a positive integer.
* The graph builder is the list of passes added so far, in the order in which
  `GraphBuilder.Execute()` runs them.
* A view is a registered graph texture with a mip level. A registered texture records
  which of the two registrations it is and the RHI texture behind it, so that the
  (image, mip level) of a view is the RHI texture with the level: the guards accept one
  render target in both slots, and then views of the two registrations share images.
* The render-command queue is a list, oldest command first.
-/

namespace ComputeBloomRT

/-! ## Engine types used by the source -/

/-- The integer point `FIntPoint`, here with non-negative coordinates. -/
structure FIntPoint where
  X : Nat
  Y : Nat
deriving DecidableEq, Repr

/-- The integer vector `FIntVector` a group count is returned in. -/
structure FIntVector where
  X : Nat
  Y : Nat
  Z : Nat
deriving DecidableEq, Repr

/-- The `FVector2D` of the shader parameter `TexelSize`. -/
structure FVector2D where
  X : ℚ
  Y : ℚ
deriving DecidableEq

/-- The part of an RHI texture that `Execute_RenderThread` reads: which texture object it
is, its mip-0 extent and `GetNumMips()`. -/
structure FRHITexture where
  id : Nat
  Extent : FIntPoint
  NumMips : Nat
deriving DecidableEq, Repr

/-- A `UTextureRenderTarget2D`: `bAutoGenerateMips` and the texture behind
`GetRenderTargetResource()->TextureRHI`. -/
structure UTextureRenderTarget2D where
  bAutoGenerateMips : Bool
  TextureRHI : FRHITexture
deriving DecidableEq, Repr

/-- A pooled render target wrapping one RHI texture under a debug name. -/
structure IPooledRenderTarget where
  Texture : FRHITexture
  Name : String
deriving DecidableEq, Repr

/-- The two registrations `Execute_RenderThread` makes with the graph builder, named
after the local variables that hold them. -/
inductive FRDGTextureRef where
  | OutTextureRDG
  | InTextureRDG
deriving DecidableEq, Repr

/-- A texture registered with the graph builder: which registration it is, and the RHI
texture of the pooled render target that was registered. Two registrations of one RHI
texture are two graph textures over the same image. -/
structure FRDGTexture where
  Ref : FRDGTextureRef
  Texture : FRHITexture
deriving DecidableEq, Repr

/-- A single-mip view of a registered texture, as made by
`FRDGTextureSRVDesc::CreateForMipLevel(Texture, MipLevel)` (read) and
`FRDGTextureUAVDesc(Texture, MipLevel)` (write). -/
structure MipView where
  Texture : FRDGTexture
  MipLevel : Nat
deriving DecidableEq, Repr

/-- The (image, mip level) a view refers to: the RHI texture behind the registered
texture, and the level. Views made from the two registrations refer to the same
(image, mip level) when both registrations hold the same RHI texture. -/
def MipView.subresource (v : MipView) : FRHITexture × Nat :=
  (v.Texture.Texture, v.MipLevel)

/-- Sampler filters; the source uses `SF_Bilinear`. -/
inductive ESamplerFilter where
  | SF_Point
  | SF_Bilinear
deriving DecidableEq, Repr

/-- Sampler address modes; the source uses `AM_Clamp`. -/
inductive ESamplerAddressMode where
  | AM_Wrap
  | AM_Clamp
deriving DecidableEq, Repr

/-- The initializer `FSamplerStateInitializerRHI(Filter, AddressU, AddressV, AddressW)`. -/
structure FSamplerStateInitializerRHI where
  Filter : ESamplerFilter
  AddressU : ESamplerAddressMode
  AddressV : ESamplerAddressMode
  AddressW : ESamplerAddressMode
deriving DecidableEq, Repr

/-- What the render thread takes from the engine besides the manager: the constant
`FComputeShaderUtils::kGolden2DGroupSize`, whose value is not in the source files, and the
value `CVarBloomRadius.GetValueOnRenderThread()` returns. -/
structure RenderThreadEnv where
  kGolden2DGroupSize : Nat
  CVarBloomRadius : ℚ

/-- Modelled from the spec: the engine helper behind `FComputeShaderUtils::GetGroupCount`
is not in the source files; the spec gives the workgroup count along an axis as
`ceil(destDim / fixedGroupTileSize)`. -/
def DivideAndRoundUp (Dividend Divisor : Nat) : Nat :=
  (Dividend + Divisor - 1) / Divisor

/-- Modelled from the spec: `FComputeShaderUtils::GetGroupCount(ThreadCount, GroupSize)`
is engine code; per axis it is the rounded-up quotient, with one group in depth. -/
def GetGroupCount (ThreadCount : FIntPoint) (GroupSize : Nat) : FIntVector :=
  ⟨DivideAndRoundUp ThreadCount.X GroupSize, DivideAndRoundUp ThreadCount.Y GroupSize, 1⟩

/-- Modelled from the spec: the engine function `CacheRenderTarget(Texture, Name, Entry)`
is not in the source files; the spec's resource cache keeps the stored entry when it is
for the same texture and replaces it otherwise. The result is the new content of
`Entry`. -/
def CacheRenderTarget (Texture : FRHITexture) (Name : String)
    (Entry : Option IPooledRenderTarget) : IPooledRenderTarget :=
  match Entry with
  | some e => if e.Texture = Texture then e else ⟨Texture, Name⟩
  | none => ⟨Texture, Name⟩

/-! ## The shader parameter blocks and the passes -/

/-- The parameters `FClearCS::FParameters`. -/
structure FClearCS.FParameters where
  MipOutUAV : MipView
deriving DecidableEq

/-- The parameters `FDownsampleCS::FParameters`. -/
structure FDownsampleCS.FParameters where
  TexelSize : FVector2D
  MipInSRV : MipView
  MipOutUAV : MipView
  MipSampler : FSamplerStateInitializerRHI
deriving DecidableEq

/-- The parameters `FUpsampleCombineCS::FParameters`. -/
structure FUpsampleCombineCS.FParameters where
  TexelSize : FVector2D
  MipInSRV : MipView
  CurrInSRV : MipView
  MipOutUAV : MipView
  MipSampler : FSamplerStateInitializerRHI
  Radius : ℚ
deriving DecidableEq

/-- One `FComputeShaderUtils::AddPass` call: the shader with its parameter block, the
mip level printed in the event name, and the group count. -/
inductive Pass where
  | Clear (DestMipLevel : Nat) (PassParameters : FClearCS.FParameters)
      (GroupCount : FIntVector)
  | Downsample (DestMipLevel : Nat) (PassParameters : FDownsampleCS.FParameters)
      (GroupCount : FIntVector)
  | UpsampleCombine (DestMipLevel : Nat) (PassParameters : FUpsampleCombineCS.FParameters)
      (GroupCount : FIntVector)
deriving DecidableEq

/-- The three shaders. -/
inductive PassKind where
  | Clear
  | Downsample
  | UpsampleCombine
deriving DecidableEq, Repr

/-- The shader a pass runs. -/
def Pass.kind : Pass → PassKind
  | .Clear _ _ _ => .Clear
  | .Downsample _ _ _ => .Downsample
  | .UpsampleCombine _ _ _ => .UpsampleCombine

/-- The views a pass binds for reading (its SRVs). -/
def Pass.reads : Pass → List MipView
  | .Clear _ _ _ => []
  | .Downsample _ p _ => [p.MipInSRV]
  | .UpsampleCombine _ p _ => [p.MipInSRV, p.CurrInSRV]

/-- The view a pass binds for writing (its UAV). -/
def Pass.writes : Pass → MipView
  | .Clear _ p _ => p.MipOutUAV
  | .Downsample _ p _ => p.MipOutUAV
  | .UpsampleCombine _ p _ => p.MipOutUAV

/-- The group count a pass is dispatched with. -/
def Pass.GroupCount : Pass → FIntVector
  | .Clear _ _ g => g
  | .Downsample _ _ g => g
  | .UpsampleCombine _ _ g => g

/-- The `TexelSize` parameter of a pass, when its shader has one. -/
def Pass.TexelSize : Pass → Option FVector2D
  | .Clear _ _ _ => none
  | .Downsample _ p _ => some p.TexelSize
  | .UpsampleCombine _ p _ => some p.TexelSize

/-- The `Radius` parameter of a pass, when its shader has one. -/
def Pass.Radius : Pass → Option ℚ
  | .Clear _ _ _ => none
  | .Downsample _ _ _ => none
  | .UpsampleCombine _ p _ => some p.Radius

/-- The description `FRDGTextureDesc` of a registered texture. -/
structure FRDGTextureDesc where
  Extent : FIntPoint
  NumMips : Nat
deriving DecidableEq, Repr

/-- The graph builder `FRDGBuilder`: the passes added so far, oldest first. -/
structure FRDGBuilder where
  passes : List Pass

/-- The call `FComputeShaderUtils::AddPass(GraphBuilder, ...)`: the pass goes last. -/
def FRDGBuilder.AddPass (GraphBuilder : FRDGBuilder) (p : Pass) : FRDGBuilder :=
  ⟨GraphBuilder.passes ++ [p]⟩

/-- The call `GraphBuilder.RegisterExternalTexture(Target)`, made for the registration
`Ref`: the graph texture over the RHI texture of the pooled render target. -/
def RegisterExternalTexture (Ref : FRDGTextureRef) (Target : IPooledRenderTarget) :
    FRDGTexture :=
  ⟨Ref, Target.Texture⟩

/-- The member `Desc` of a registered texture: the extent and mip count of its RHI
texture. -/
def FRDGTexture.Desc (Texture : FRDGTexture) : FRDGTextureDesc :=
  ⟨Texture.Texture.Extent, Texture.Texture.NumMips⟩

/-! ## The manager -/

/-- The parameter block `FBloomCSParameters`: two render-target pointers. -/
structure FBloomCSParameters where
  OutRenderTarget : Option UTextureRenderTarget2D
  InRenderTarget : Option UTextureRenderTarget2D
deriving DecidableEq, Repr

/-- The data members of `FBloomCSManager`. -/
structure FBloomCSManager where
  cachedParams : FBloomCSParameters
  bCachedParamsAreValid : Bool
  ComputeShaderOutput : Option IPooledRenderTarget
  ComputeShaderInput : Option IPooledRenderTarget
deriving DecidableEq, Repr

/-- The manager `Get()` creates: `new FBloomCSManager()` zero-initialises every member. -/
def FBloomCSManager.initial : FBloomCSManager :=
  ⟨⟨none, none⟩, false, none, none⟩

/-- The method `FBloomCSManager::UpdateParameters`. -/
def FBloomCSManager.UpdateParameters (self : FBloomCSManager) (params : FBloomCSParameters) :
    FBloomCSManager :=
  { self with cachedParams := params, bCachedParamsAreValid := true }

/-- What one run of `Execute_RenderThread` does besides changing the manager: the
`UE_LOG` lines, the `CacheRenderTarget` calls (texture and name), and the passes that
`GraphBuilder.Execute()` runs, each list in program order. -/
structure RenderThreadEffects where
  log : List String
  cacheCalls : List (FRHITexture × String)
  passes : List Pass
deriving DecidableEq

/-- The run that does nothing. -/
def RenderThreadEffects.none : RenderThreadEffects := ⟨[], [], []⟩

/-- The destination size every block of `Execute_RenderThread` computes:
`(Max(TextureDesc.Extent.X >> MipLevel, 1), Max(TextureDesc.Extent.Y >> MipLevel, 1))`. -/
def DestTextureSize (TextureDesc : FRDGTextureDesc) (MipLevel : Nat) : FIntPoint :=
  ⟨max (TextureDesc.Extent.X >>> MipLevel) 1, max (TextureDesc.Extent.Y >>> MipLevel) 1⟩

/-- The sampler of lines 140-141. -/
def Sampler : FSamplerStateInitializerRHI :=
  ⟨.SF_Bilinear, .AM_Clamp, .AM_Clamp, .AM_Clamp⟩

/-- The block of lines 143-162: the clear pass for `MipLevel = TextureDesc.NumMips - 1`. -/
def clearPass (env : RenderThreadEnv) (TextureDesc : FRDGTextureDesc)
    (OutTextureRDG : FRDGTexture) : Pass :=
  let MipLevel := TextureDesc.NumMips - 1
  .Clear MipLevel ⟨⟨OutTextureRDG, MipLevel⟩⟩
    (GetGroupCount (DestTextureSize TextureDesc MipLevel) env.kGolden2DGroupSize)

/-- The body of the loop of lines 168-186 at `MipLevel`. -/
def downsamplePass (env : RenderThreadEnv) (TextureDesc : FRDGTextureDesc)
    (InTextureRDG : FRDGTexture) (MipLevel : Nat) : Pass :=
  let Dest := DestTextureSize TextureDesc MipLevel
  .Downsample MipLevel
    { TexelSize := ⟨1 / (Dest.X : ℚ), 1 / (Dest.Y : ℚ)⟩
      MipInSRV := ⟨InTextureRDG, MipLevel - 1⟩
      MipOutUAV := ⟨InTextureRDG, MipLevel⟩
      MipSampler := Sampler }
    (GetGroupCount Dest env.kGolden2DGroupSize)

/-- The body of the loop of lines 193-217 at `MipLevel`. -/
def upsampleCombinePass (env : RenderThreadEnv) (TextureDesc : FRDGTextureDesc)
    (OutTextureRDG InTextureRDG : FRDGTexture) (MipLevel : Nat) : Pass :=
  let Dest := DestTextureSize TextureDesc (MipLevel - 1)
  .UpsampleCombine (MipLevel - 1)
    { TexelSize := ⟨1 / (Dest.X : ℚ), 1 / (Dest.Y : ℚ)⟩
      MipInSRV := ⟨OutTextureRDG, MipLevel⟩
      CurrInSRV := ⟨InTextureRDG, MipLevel - 1⟩
      MipOutUAV := ⟨OutTextureRDG, MipLevel - 1⟩
      MipSampler := Sampler
      Radius := env.CVarBloomRadius }
    (GetGroupCount Dest env.kGolden2DGroupSize)

/-- The loop `for (MipLevel = 1, MipCount = NumMips; MipLevel < MipCount; ++MipLevel)`,
entered at `MipLevel`; `fuel` bounds the number of iterations. -/
def downsampleLoop (env : RenderThreadEnv) (TextureDesc : FRDGTextureDesc)
    (InTextureRDG : FRDGTexture) (MipCount : Nat) :
    Nat → Nat → FRDGBuilder → FRDGBuilder
  | 0, _, GraphBuilder => GraphBuilder
  | fuel + 1, MipLevel, GraphBuilder =>
    if MipLevel < MipCount then
      downsampleLoop env TextureDesc InTextureRDG MipCount fuel (MipLevel + 1)
        (GraphBuilder.AddPass (downsamplePass env TextureDesc InTextureRDG MipLevel))
    else GraphBuilder

/-- The loop `for (MipLevel = NumMips - 1; MipLevel > 0; --MipLevel)`, entered at
`MipLevel`. -/
def upsampleCombineLoop (env : RenderThreadEnv) (TextureDesc : FRDGTextureDesc)
    (OutTextureRDG InTextureRDG : FRDGTexture) :
    Nat → FRDGBuilder → FRDGBuilder
  | 0, GraphBuilder => GraphBuilder
  | MipLevel + 1, GraphBuilder =>
    upsampleCombineLoop env TextureDesc OutTextureRDG InTextureRDG MipLevel
      (GraphBuilder.AddPass
        (upsampleCombinePass env TextureDesc OutTextureRDG InTextureRDG (MipLevel + 1)))

/-- Lines 143-217: the passes added for the two registered textures, with `TextureDesc`
the description line 133 takes from the output texture. The downsample loop runs at most
`NumMips` times, so that is its fuel. -/
def buildPasses (env : RenderThreadEnv) (TextureDesc : FRDGTextureDesc)
    (OutTextureRDG InTextureRDG : FRDGTexture) : List Pass :=
  let g0 : FRDGBuilder := ⟨[]⟩
  let g1 := g0.AddPass (clearPass env TextureDesc OutTextureRDG)
  let g2 := downsampleLoop env TextureDesc InTextureRDG TextureDesc.NumMips
    TextureDesc.NumMips 1 g1
  let g3 := upsampleCombineLoop env TextureDesc OutTextureRDG InTextureRDG
    (TextureDesc.NumMips - 1) g2
  g3.passes

/-- The method `FBloomCSManager::Execute_RenderThread`: the manager afterwards and what
the run did. -/
def FBloomCSManager.Execute_RenderThread (env : RenderThreadEnv) (self : FBloomCSManager) :
    FBloomCSManager × RenderThreadEffects :=
  match self.bCachedParamsAreValid, self.cachedParams.InRenderTarget,
      self.cachedParams.OutRenderTarget with
  | true, some InRenderTarget, some OutRenderTarget =>
    let OutTextureRHI := OutRenderTarget.TextureRHI
    let InTextureRHI := InRenderTarget.TextureRHI
    if OutTextureRHI.NumMips ≤ 1 ∨ InTextureRHI.NumMips ≤ 1 then
      (self, ⟨["Missing mips in render targets!"], [], []⟩)
    else if InTextureRHI.NumMips ≠ OutTextureRHI.NumMips then
      (self, ⟨["Render targets have different mip count! Ensure they have the same resolution."],
        [], []⟩)
    else
      let ComputeShaderOutput :=
        CacheRenderTarget OutTextureRHI "BloomOutput" self.ComputeShaderOutput
      let OutTextureRDG := RegisterExternalTexture .OutTextureRDG ComputeShaderOutput
      let TextureDesc := OutTextureRDG.Desc
      let ComputeShaderInput :=
        CacheRenderTarget InTextureRHI "BloomInput" self.ComputeShaderInput
      let InTextureRDG := RegisterExternalTexture .InTextureRDG ComputeShaderInput
      ({ self with ComputeShaderOutput := some ComputeShaderOutput,
                   ComputeShaderInput := some ComputeShaderInput },
       ⟨[], [(OutTextureRHI, "BloomOutput"), (InTextureRHI, "BloomInput")],
        buildPasses env TextureDesc OutTextureRDG InTextureRDG⟩)
  | _, _, _ => (self, RenderThreadEffects.none)

/-! ## The two threads -/

/-- The command `ENQUEUE_RENDER_COMMAND(ComputeBloomRT)` queues: a closure that captures
`this` and nothing else. The manager is a singleton, so the command has no data. -/
inductive RenderCommand where
  | ComputeBloomRT
deriving DecidableEq, Repr

/-- The singleton manager, the pending render commands (oldest first) and the record of
the commands the render thread has run (oldest first). -/
structure BloomSystem where
  manager : FBloomCSManager
  renderQueue : List RenderCommand
  executed : List RenderThreadEffects

/-- The system before the first tick. -/
def BloomSystem.initial : BloomSystem := ⟨FBloomCSManager.initial, [], []⟩

/-- Game thread: `FBloomCSManager::Get()->UpdateParameters(params)`. -/
def BloomSystem.UpdateParameters (s : BloomSystem) (params : FBloomCSParameters) : BloomSystem :=
  { s with manager := s.manager.UpdateParameters params }

/-- Game thread: `FBloomCSManager::Render`, which queues one command. -/
def BloomSystem.Render (s : BloomSystem) : BloomSystem :=
  { s with renderQueue := s.renderQueue ++ [RenderCommand.ComputeBloomRT] }

/-- Render thread: run the oldest pending command, if there is one. -/
def BloomSystem.runRenderCommand (env : RenderThreadEnv) (s : BloomSystem) : BloomSystem :=
  match s.renderQueue with
  | [] => s
  | RenderCommand.ComputeBloomRT :: rest =>
    let r := s.manager.Execute_RenderThread env
    ⟨r.1, rest, s.executed ++ [r.2]⟩

/-- Render thread: run every pending command, oldest first. -/
def BloomSystem.drain (env : RenderThreadEnv) (s : BloomSystem) : BloomSystem :=
  s.renderQueue.foldl (fun t _ => t.runRenderCommand env) s

/-- Lines 237-247 of `UComputeBloomComponent::TickComponent` for a component with the given
`InRenderTarget` and `OutRenderTarget`. Line 239 writes through the input pointer, so an
output pointer to the same render target sees the write too. -/
def TickComponent (InRenderTarget OutRenderTarget : Option UTextureRenderTarget2D)
    (s : BloomSystem) : BloomSystem :=
  let Written := InRenderTarget.map (fun t => { t with bAutoGenerateMips := false })
  let params : FBloomCSParameters :=
    { OutRenderTarget := if OutRenderTarget = InRenderTarget then Written else OutRenderTarget,
      InRenderTarget := Written }
  (s.UpdateParameters params).Render

/-- One step of either thread. -/
inductive Op where
  | UpdateParameters (params : FBloomCSParameters)
  | Render
  | runRenderCommand

/-- The step function of the system. -/
def BloomSystem.step (env : RenderThreadEnv) (s : BloomSystem) : Op → BloomSystem
  | .UpdateParameters params => s.UpdateParameters params
  | .Render => s.Render
  | .runRenderCommand => s.runRenderCommand env

/-- A run: the steps of a list, first to last. -/
def BloomSystem.run (env : RenderThreadEnv) (s : BloomSystem) (ops : List Op) : BloomSystem :=
  ops.foldl (BloomSystem.step env) s

/-! ## The sizes the specification speaks of -/

/-- The pixel dimension of a mip along one axis, in the specification's words:
`max(baseDim >> level, 1)`. -/
def mipDim (baseDim level : Nat) : Nat :=
  max (baseDim >>> level) 1

/-- The pixel size of the mip a view refers to: the mip dimensions of the RHI texture
behind the registered texture. -/
def MipView.size (v : MipView) : FIntPoint :=
  ⟨mipDim v.Texture.Texture.Extent.X v.MipLevel, mipDim v.Texture.Texture.Extent.Y v.MipLevel⟩

/-- The passes one run of `Execute_RenderThread` adds after the game thread has handed
over the two render targets. -/
def passesFor (env : RenderThreadEnv) (m : FBloomCSManager)
    (OutRenderTarget InRenderTarget : UTextureRenderTarget2D) : List Pass :=
  ((m.UpdateParameters ⟨some OutRenderTarget, some InRenderTarget⟩).Execute_RenderThread
    env).2.passes

/-! ## Concrete inputs -/

/-- The engine's 8-wide tile and the default radius 0.85 of `r.ComputeBloomRT.Radius`. -/
def exampleEnv : RenderThreadEnv := ⟨8, 85 / 100⟩

/-- A render target of the given identity, width, height and mip count. -/
def renderTarget (id width height mips : Nat) : UTextureRenderTarget2D :=
  ⟨false, ⟨id, ⟨width, height⟩, mips⟩⟩

/-- The graph texture `OutTextureRDG` of a run whose output render target is `o`. -/
def outTexture (o : UTextureRenderTarget2D) : FRDGTexture :=
  ⟨.OutTextureRDG, o.TextureRHI⟩

/-- The graph texture `InTextureRDG` of a run whose input render target is `i`. -/
def inTexture (i : UTextureRenderTarget2D) : FRDGTexture :=
  ⟨.InTextureRDG, i.TextureRHI⟩

/-! ## The pass sequence in closed form -/

/-- The downsample loop adds the passes for `MipLevel, MipLevel + 1, ..., MipCount - 1`,
in that order, once the fuel covers the remaining iterations. -/
theorem downsampleLoop_passes (env : RenderThreadEnv) (TextureDesc : FRDGTextureDesc)
    (InTextureRDG : FRDGTexture) (MipCount : Nat) :
    ∀ (fuel MipLevel : Nat) (g : FRDGBuilder), MipCount - MipLevel ≤ fuel →
      (downsampleLoop env TextureDesc InTextureRDG MipCount fuel MipLevel g).passes =
        g.passes ++ (List.range' MipLevel (MipCount - MipLevel)).map
          (downsamplePass env TextureDesc InTextureRDG) := by
  intro fuel
  induction fuel with
  | zero =>
    intro MipLevel g h
    have h0 : MipCount - MipLevel = 0 := by omega
    simp [downsampleLoop, h0]
  | succ fuel ih =>
    intro MipLevel g h
    by_cases hlt : MipLevel < MipCount
    · have hk : MipCount - MipLevel = (MipCount - (MipLevel + 1)) + 1 := by omega
      rw [downsampleLoop, if_pos hlt, ih (MipLevel + 1) _ (by omega), hk, List.range'_succ]
      simp [FRDGBuilder.AddPass]
    · have h0 : MipCount - MipLevel = 0 := by omega
      rw [downsampleLoop, if_neg hlt, h0]
      simp

/-- The upsample-combine loop adds the passes for `MipLevel, MipLevel - 1, ..., 1`, in
that order. -/
theorem upsampleCombineLoop_passes (env : RenderThreadEnv) (TextureDesc : FRDGTextureDesc)
    (OutTextureRDG InTextureRDG : FRDGTexture) :
    ∀ (MipLevel : Nat) (g : FRDGBuilder),
      (upsampleCombineLoop env TextureDesc OutTextureRDG InTextureRDG MipLevel g).passes =
        g.passes ++ (List.range' 1 MipLevel).reverse.map
          (upsampleCombinePass env TextureDesc OutTextureRDG InTextureRDG) := by
  intro MipLevel
  induction MipLevel with
  | zero => intro g; simp [upsampleCombineLoop]
  | succ L ih =>
    intro g
    rw [upsampleCombineLoop, ih, List.range'_1_concat]
    simp [FRDGBuilder.AddPass, Nat.add_comm]

/-- The passes of lines 143-217: the clear pass, the downsample passes for levels
`1 .. NumMips - 1`, the upsample-combine passes for levels `NumMips - 1 .. 1`. -/
theorem buildPasses_eq (env : RenderThreadEnv) (TextureDesc : FRDGTextureDesc)
    (OutTextureRDG InTextureRDG : FRDGTexture) :
    buildPasses env TextureDesc OutTextureRDG InTextureRDG =
      clearPass env TextureDesc OutTextureRDG ::
        ((List.range' 1 (TextureDesc.NumMips - 1)).map (downsamplePass env TextureDesc InTextureRDG) ++
         (List.range' 1 (TextureDesc.NumMips - 1)).reverse.map
           (upsampleCombinePass env TextureDesc OutTextureRDG InTextureRDG)) := by
  simp only [buildPasses]
  rw [upsampleCombineLoop_passes, downsampleLoop_passes _ _ _ _ _ _ _ (by omega)]
  simp [FRDGBuilder.AddPass]

/-- The number of passes. -/
theorem buildPasses_length (env : RenderThreadEnv) (TextureDesc : FRDGTextureDesc)
    (OutTextureRDG InTextureRDG : FRDGTexture) :
    (buildPasses env TextureDesc OutTextureRDG InTextureRDG).length =
      1 + (TextureDesc.NumMips - 1) + (TextureDesc.NumMips - 1) := by
  rw [buildPasses_eq]
  simp
  omega

/-- The pass at position 0 is the clear pass. -/
theorem buildPasses_getElem?_zero (env : RenderThreadEnv) (TextureDesc : FRDGTextureDesc)
    (OutTextureRDG InTextureRDG : FRDGTexture) :
    (buildPasses env TextureDesc OutTextureRDG InTextureRDG)[0]? = some (clearPass env TextureDesc OutTextureRDG) := by
  rw [buildPasses_eq]
  simp

/-- The pass at position `L`, for `1 ≤ L ≤ NumMips - 1`, is the downsample pass for `L`. -/
theorem buildPasses_getElem?_downsample (env : RenderThreadEnv)
    (TextureDesc : FRDGTextureDesc) (OutTextureRDG InTextureRDG : FRDGTexture) (L : Nat) (h1 : 1 ≤ L) (h2 : L < TextureDesc.NumMips) :
    (buildPasses env TextureDesc OutTextureRDG InTextureRDG)[L]? = some (downsamplePass env TextureDesc InTextureRDG L) := by
  rw [buildPasses_eq]
  obtain ⟨k, rfl⟩ : ∃ k, L = k + 1 := ⟨L - 1, by omega⟩
  rw [List.getElem?_cons_succ, List.getElem?_append_left (by simp; omega),
    List.getElem?_map, List.getElem?_range' _ _ (by omega)]
  simp [Nat.add_comm]

/-- The pass at position `2 * NumMips - 1 - L`, for `1 ≤ L ≤ NumMips - 1`, is the
upsample-combine pass for `L`. -/
theorem buildPasses_getElem?_upsampleCombine (env : RenderThreadEnv)
    (TextureDesc : FRDGTextureDesc) (OutTextureRDG InTextureRDG : FRDGTexture) (L : Nat) (h1 : 1 ≤ L) (h2 : L < TextureDesc.NumMips) :
    (buildPasses env TextureDesc OutTextureRDG InTextureRDG)[2 * TextureDesc.NumMips - 1 - L]? =
      some (upsampleCombinePass env TextureDesc OutTextureRDG InTextureRDG L) := by
  rw [buildPasses_eq]
  obtain ⟨k, hk⟩ : ∃ k, 2 * TextureDesc.NumMips - 1 - L = k + 1 :=
    ⟨2 * TextureDesc.NumMips - 2 - L, by omega⟩
  rw [hk, List.getElem?_cons_succ, List.getElem?_append_right (by simp; omega),
    List.getElem?_map, List.getElem?_reverse (by simp; omega),
    List.getElem?_range' _ _ (by simp; omega)]
  simp
  congr 1
  omega

/-- Every position of the sequence holds the clear pass, a downsample pass or an
upsample-combine pass, according to where it lies. -/
theorem buildPasses_getElem?_cases (env : RenderThreadEnv) (TextureDesc : FRDGTextureDesc)
    (OutTextureRDG InTextureRDG : FRDGTexture) (i : Nat) (p : Pass) (h : (buildPasses env TextureDesc OutTextureRDG InTextureRDG)[i]? = some p) :
    (i = 0 ∧ p = clearPass env TextureDesc OutTextureRDG) ∨
    (1 ≤ i ∧ i < TextureDesc.NumMips ∧ p = downsamplePass env TextureDesc InTextureRDG i) ∨
    (∃ L, 1 ≤ L ∧ L < TextureDesc.NumMips ∧ i = 2 * TextureDesc.NumMips - 1 - L ∧
      p = upsampleCombinePass env TextureDesc OutTextureRDG InTextureRDG L) := by
  have hlen := buildPasses_length env TextureDesc OutTextureRDG InTextureRDG
  have hi : i < (buildPasses env TextureDesc OutTextureRDG InTextureRDG).length := by
    rcases List.getElem?_eq_some.1 h with ⟨hi, _⟩
    exact hi
  by_cases h0 : i = 0
  · subst h0
    rw [buildPasses_getElem?_zero] at h
    exact Or.inl ⟨rfl, (Option.some.inj h).symm⟩
  · by_cases h1 : i < TextureDesc.NumMips
    · rw [buildPasses_getElem?_downsample env TextureDesc OutTextureRDG InTextureRDG i (by omega) h1] at h
      exact Or.inr (Or.inl ⟨by omega, h1, (Option.some.inj h).symm⟩)
    · have hidx : i = 2 * TextureDesc.NumMips - 1 - (2 * TextureDesc.NumMips - 1 - i) := by
        omega
      have h' := buildPasses_getElem?_upsampleCombine env TextureDesc OutTextureRDG InTextureRDG
        (2 * TextureDesc.NumMips - 1 - i) (by omega) (by omega)
      rw [← hidx, h] at h'
      exact Or.inr (Or.inr ⟨_, by omega, by omega, hidx, Option.some.inj h'⟩)

/-- A pass is in the sequence exactly when it is the clear pass, the downsample pass for
some level `1 ≤ L < NumMips`, or the upsample-combine pass for some such level. -/
theorem mem_buildPasses (env : RenderThreadEnv) (TextureDesc : FRDGTextureDesc)
    (OutTextureRDG InTextureRDG : FRDGTexture) (p : Pass) :
    p ∈ buildPasses env TextureDesc OutTextureRDG InTextureRDG ↔
      p = clearPass env TextureDesc OutTextureRDG ∨
      (∃ L, 1 ≤ L ∧ L < TextureDesc.NumMips ∧ p = downsamplePass env TextureDesc InTextureRDG L) ∨
      (∃ L, 1 ≤ L ∧ L < TextureDesc.NumMips ∧ p = upsampleCombinePass env TextureDesc OutTextureRDG InTextureRDG L) := by
  rw [buildPasses_eq]
  simp only [List.mem_cons, List.mem_append, List.mem_map, List.mem_reverse,
    List.mem_range'_1]
  constructor
  · rintro (h | ⟨L, ⟨h1, h2⟩, rfl⟩ | ⟨L, ⟨h1, h2⟩, rfl⟩)
    · exact Or.inl h
    · exact Or.inr (Or.inl ⟨L, h1, by omega, rfl⟩)
    · exact Or.inr (Or.inr ⟨L, h1, by omega, rfl⟩)
  · rintro (h | ⟨L, h1, h2, rfl⟩ | ⟨L, h1, h2, rfl⟩)
    · exact Or.inl h
    · exact Or.inr (Or.inl ⟨L, ⟨h1, by omega⟩, rfl⟩)
    · exact Or.inr (Or.inr ⟨L, ⟨h1, by omega⟩, rfl⟩)


/-! ## What `Execute_RenderThread` does -/

/-- The pooled render target a texture is cached in holds that texture. -/
theorem CacheRenderTarget_Texture (Texture : FRHITexture) (Name : String)
    (Entry : Option IPooledRenderTarget) :
    (CacheRenderTarget Texture Name Entry).Texture = Texture := by
  cases Entry with
  | none => rfl
  | some e =>
    by_cases h : e.Texture = Texture
    · simp [CacheRenderTarget, h]
    · simp [CacheRenderTarget, h]

/-- With two render targets of equal mip count at least 2, the passes of a run are the
passes built for the two registered textures and the description of the output
texture. -/
theorem passesFor_eq (env : RenderThreadEnv) (m : FBloomCSManager)
    (o i : UTextureRenderTarget2D) (ho : 2 ≤ o.TextureRHI.NumMips)
    (hi : i.TextureRHI.NumMips = o.TextureRHI.NumMips) :
    passesFor env m o i =
      buildPasses env ⟨o.TextureRHI.Extent, o.TextureRHI.NumMips⟩
        (outTexture o) (inTexture i) := by
  have h1 : ¬ (o.TextureRHI.NumMips ≤ 1 ∨ i.TextureRHI.NumMips ≤ 1) := by omega
  have h2 : ¬ (i.TextureRHI.NumMips ≠ o.TextureRHI.NumMips) := by omega
  simp only [passesFor, FBloomCSManager.Execute_RenderThread,
    FBloomCSManager.UpdateParameters, if_neg h1, if_neg h2, RegisterExternalTexture,
    FRDGTexture.Desc, CacheRenderTarget_Texture, outTexture, inTexture]

/-! ## The claims -/

/-- C1: for two render targets of the same mip count `N ≥ 2`, `Execute_RenderThread` adds
exactly `2N - 1` passes: first one Clear pass that writes output mip `N - 1`, then the
Downsample passes writing input mips `1, 2, ..., N - 1` in ascending order (each reading
the input mip below), then the UpsampleCombine passes whose source is output mip
`N - 1, N - 2, ..., 1` in descending order (each also reading the input mip below and
writing the output mip below). -/
theorem C1_pass_sequence (env : RenderThreadEnv) (m : FBloomCSManager)
    (o i : UTextureRenderTarget2D) (N : Nat) (hN : 2 ≤ N)
    (ho : o.TextureRHI.NumMips = N) (hi : i.TextureRHI.NumMips = N) :
    (passesFor env m o i).length = 2 * N - 1 ∧
    (passesFor env m o i).map (fun p => (p.kind, p.reads, p.writes)) =
      [(PassKind.Clear, [], ⟨outTexture o, N - 1⟩)] ++
      (List.range' 1 (N - 1)).map (fun L =>
        (PassKind.Downsample, [⟨inTexture i, L - 1⟩], ⟨inTexture i, L⟩)) ++
      (List.range' 1 (N - 1)).reverse.map (fun L =>
        (PassKind.UpsampleCombine, [⟨outTexture o, L⟩, ⟨inTexture i, L - 1⟩],
          ⟨outTexture o, L - 1⟩)) := by
  subst ho
  rw [passesFor_eq env m o i hN hi]
  refine ⟨by rw [buildPasses_length]; simp; omega, ?_⟩
  rw [buildPasses_eq]
  simp [clearPass, downsamplePass, upsampleCombinePass, Pass.kind, Pass.reads, Pass.writes,
    Function.comp_def]

/-- C1 at the 256×256 pair with 9 mips: 17 passes. -/
theorem C1_pass_sequence_witness :
    2 ≤ 9 ∧
    (passesFor exampleEnv FBloomCSManager.initial (renderTarget 0 256 256 9)
      (renderTarget 1 256 256 9)).length = 17 :=
  ⟨by decide,
   (C1_pass_sequence exampleEnv FBloomCSManager.initial (renderTarget 0 256 256 9)
      (renderTarget 1 256 256 9) 9 (by decide) rfl rfl).1⟩

/-- C2: when both render targets are set but the output or the input texture has at most
one mip, or the two mip counts differ, `Execute_RenderThread` adds no pass, logs exactly
one line, calls `CacheRenderTarget` for neither texture, and leaves the manager as it
was. -/
theorem C2_malformed_mips (env : RenderThreadEnv) (m : FBloomCSManager)
    (o i : UTextureRenderTarget2D)
    (h : o.TextureRHI.NumMips ≤ 1 ∨ i.TextureRHI.NumMips ≤ 1 ∨
      i.TextureRHI.NumMips ≠ o.TextureRHI.NumMips) :
    ((m.UpdateParameters ⟨some o, some i⟩).Execute_RenderThread env).2.passes = [] ∧
    ((m.UpdateParameters ⟨some o, some i⟩).Execute_RenderThread env).2.log.length = 1 ∧
    ((m.UpdateParameters ⟨some o, some i⟩).Execute_RenderThread env).2.cacheCalls = [] ∧
    ((m.UpdateParameters ⟨some o, some i⟩).Execute_RenderThread env).1 =
      m.UpdateParameters ⟨some o, some i⟩ := by
  simp only [FBloomCSManager.Execute_RenderThread, FBloomCSManager.UpdateParameters]
  by_cases h1 : o.TextureRHI.NumMips ≤ 1 ∨ i.TextureRHI.NumMips ≤ 1
  · simp [if_pos h1]
  · have h2 : i.TextureRHI.NumMips ≠ o.TextureRHI.NumMips := by
      rcases h with h | h | h
      · exact absurd (Or.inl h) h1
      · exact absurd (Or.inr h) h1
      · exact h
    simp [if_neg h1, h2]

/-- C2 at an output with 1 mip and an input with 9 mips: no pass, one log line, no
`CacheRenderTarget` call. -/
theorem C2_malformed_mips_witness :
    ((renderTarget 0 256 256 1).TextureRHI.NumMips ≤ 1 ∨
      (renderTarget 1 256 256 9).TextureRHI.NumMips ≤ 1 ∨
      (renderTarget 1 256 256 9).TextureRHI.NumMips ≠
        (renderTarget 0 256 256 1).TextureRHI.NumMips) ∧
    ((FBloomCSManager.initial.UpdateParameters
      ⟨some (renderTarget 0 256 256 1), some (renderTarget 1 256 256 9)⟩).Execute_RenderThread
        exampleEnv).2.passes = [] ∧
    ((FBloomCSManager.initial.UpdateParameters
      ⟨some (renderTarget 0 256 256 1), some (renderTarget 1 256 256 9)⟩).Execute_RenderThread
        exampleEnv).2.log.length = 1 ∧
    ((FBloomCSManager.initial.UpdateParameters
      ⟨some (renderTarget 0 256 256 1), some (renderTarget 1 256 256 9)⟩).Execute_RenderThread
        exampleEnv).2.cacheCalls = [] :=
  ⟨Or.inl (by decide),
   (C2_malformed_mips exampleEnv FBloomCSManager.initial (renderTarget 0 256 256 1)
     (renderTarget 1 256 256 9) (Or.inl (by decide))).1,
   (C2_malformed_mips exampleEnv FBloomCSManager.initial (renderTarget 0 256 256 1)
     (renderTarget 1 256 256 9) (Or.inl (by decide))).2.1,
   (C2_malformed_mips exampleEnv FBloomCSManager.initial (renderTarget 0 256 256 1)
     (renderTarget 1 256 256 9) (Or.inl (by decide))).2.2.1⟩

/-- C3: when no parameters have been handed over yet (the flag is false), or the cached
input pointer is null, or the cached output pointer is null, `Execute_RenderThread`
returns at once: no pass, no log line, no `CacheRenderTarget` call, and the manager is
unchanged. -/
theorem C3_not_configured (env : RenderThreadEnv) (m : FBloomCSManager)
    (h : m.bCachedParamsAreValid = false ∨ m.cachedParams.InRenderTarget = none ∨
      m.cachedParams.OutRenderTarget = none) :
    (m.Execute_RenderThread env).2.passes = [] ∧
    (m.Execute_RenderThread env).2.log = [] ∧
    (m.Execute_RenderThread env).2.cacheCalls = [] ∧
    (m.Execute_RenderThread env).1 = m := by
  rcases m with ⟨⟨o, i⟩, v, co, ci⟩
  simp only at h
  rcases h with h | h | h
  · subst h
    simp [FBloomCSManager.Execute_RenderThread, RenderThreadEffects.none]
  · subst h
    cases v <;> simp [FBloomCSManager.Execute_RenderThread, RenderThreadEffects.none]
  · subst h
    cases v <;> cases i <;>
      simp [FBloomCSManager.Execute_RenderThread, RenderThreadEffects.none]

/-- C3 after parameters with a null output pointer have been handed over: the run is a
silent no-op. -/
theorem C3_not_configured_witness :
    ((FBloomCSManager.initial.UpdateParameters
        ⟨none, some (renderTarget 1 256 256 9)⟩).bCachedParamsAreValid = false ∨
      (FBloomCSManager.initial.UpdateParameters
        ⟨none, some (renderTarget 1 256 256 9)⟩).cachedParams.InRenderTarget = none ∨
      (FBloomCSManager.initial.UpdateParameters
        ⟨none, some (renderTarget 1 256 256 9)⟩).cachedParams.OutRenderTarget = none) ∧
    ((FBloomCSManager.initial.UpdateParameters
        ⟨none, some (renderTarget 1 256 256 9)⟩).Execute_RenderThread exampleEnv).2.passes = [] ∧
    ((FBloomCSManager.initial.UpdateParameters
        ⟨none, some (renderTarget 1 256 256 9)⟩).Execute_RenderThread exampleEnv).2.log = [] ∧
    ((FBloomCSManager.initial.UpdateParameters
        ⟨none, some (renderTarget 1 256 256 9)⟩).Execute_RenderThread exampleEnv).2.cacheCalls
      = [] :=
  ⟨Or.inr (Or.inr rfl),
   (C3_not_configured exampleEnv
     (FBloomCSManager.initial.UpdateParameters ⟨none, some (renderTarget 1 256 256 9)⟩)
     (Or.inr (Or.inr rfl))).1,
   (C3_not_configured exampleEnv
     (FBloomCSManager.initial.UpdateParameters ⟨none, some (renderTarget 1 256 256 9)⟩)
     (Or.inr (Or.inr rfl))).2.1,
   (C3_not_configured exampleEnv
     (FBloomCSManager.initial.UpdateParameters ⟨none, some (renderTarget 1 256 256 9)⟩)
     (Or.inr (Or.inr rfl))).2.2.1⟩

/-- C4: for two render targets of the same mip count `N ≥ 2` and every level `L` from
`N - 1` down to 1, the UpsampleCombine pass for `L` (the pass at position `2N - 1 - L`)
reads output mip `L` and input mip `L - 1`, writes output mip `L - 1`, and its `Radius`
is the value read from the console variable, unchanged; every UpsampleCombine pass
carries that value; and the last pass of the sequence writes output mip 0. -/
theorem C4_upsample_combine (env : RenderThreadEnv) (m : FBloomCSManager)
    (o i : UTextureRenderTarget2D) (N : Nat) (hN : 2 ≤ N)
    (ho : o.TextureRHI.NumMips = N) (hi : i.TextureRHI.NumMips = N) :
    (∀ L, 1 ≤ L → L ≤ N - 1 →
      ∃ p, (passesFor env m o i)[2 * N - 1 - L]? = some p ∧
        p.kind = PassKind.UpsampleCombine ∧
        p.reads = [⟨outTexture o, L⟩, ⟨inTexture i, L - 1⟩] ∧
        p.writes = ⟨outTexture o, L - 1⟩ ∧
        p.Radius = some env.CVarBloomRadius) ∧
    (∀ p ∈ passesFor env m o i, p.kind = PassKind.UpsampleCombine →
      p.Radius = some env.CVarBloomRadius) ∧
    (∃ q, (passesFor env m o i).getLast? = some q ∧ q.writes = ⟨outTexture o, 0⟩) := by
  subst ho
  rw [passesFor_eq env m o i hN hi]
  refine ⟨?_, ?_, ?_⟩
  · intro L h1 h2
    exact ⟨_, buildPasses_getElem?_upsampleCombine env _ _ _ L h1 (by simp only; omega),
      rfl, rfl, rfl, rfl⟩
  · intro p hp hk
    rcases (mem_buildPasses env _ _ _ p).1 hp with rfl | ⟨L, _, _, rfl⟩ | ⟨L, _, _, rfl⟩
    · simp [clearPass, Pass.kind] at hk
    · simp [downsamplePass, Pass.kind] at hk
    · rfl
  · refine ⟨upsampleCombinePass env ⟨o.TextureRHI.Extent, o.TextureRHI.NumMips⟩
      (outTexture o) (inTexture i) 1, ?_, rfl⟩
    rw [List.getLast?_eq_getElem?, buildPasses_length]
    have h := buildPasses_getElem?_upsampleCombine env
      ⟨o.TextureRHI.Extent, o.TextureRHI.NumMips⟩ (outTexture o) (inTexture i) 1
      (le_refl 1) (by simp only; omega)
    have hidx : 1 + (o.TextureRHI.NumMips - 1) + (o.TextureRHI.NumMips - 1) - 1 =
        2 * o.TextureRHI.NumMips - 1 - 1 := by omega
    simp only [hidx]
    exact h

/-- C4 at the 256×256 pair with 9 mips and radius 0.85. -/
theorem C4_upsample_combine_witness :
    2 ≤ 9 ∧
    ∃ q, (passesFor exampleEnv FBloomCSManager.initial (renderTarget 0 256 256 9)
      (renderTarget 1 256 256 9)).getLast? = some q ∧
      q.writes = ⟨outTexture (renderTarget 0 256 256 9), 0⟩ :=
  ⟨by decide,
   (C4_upsample_combine exampleEnv FBloomCSManager.initial (renderTarget 0 256 256 9)
      (renderTarget 1 256 256 9) 9 (by decide) rfl rfl).2.2⟩

/-- C7, as stated, fails when one render target is set as both input and output, which
the guards of `Execute_RenderThread` accept: for a 4×4 target with 3 mips, the
UpsampleCombine pass at position 3 writes mip 1 of the very image whose mip 1 it reads
through `CurrInSRV`. -/
theorem C7_same_target_reads_written_view :
    ∃ p, (passesFor exampleEnv FBloomCSManager.initial (renderTarget 0 4 4 3)
        (renderTarget 0 4 4 3))[3]? = some p ∧
      p.kind = PassKind.UpsampleCombine ∧
      p.writes.subresource = ((renderTarget 0 4 4 3).TextureRHI, 1) ∧
      p.reads.map MipView.subresource =
        [((renderTarget 0 4 4 3).TextureRHI, 2), ((renderTarget 0 4 4 3).TextureRHI, 1)] ∧
      p.writes.subresource ∈ p.reads.map MipView.subresource := by
  refine ⟨upsampleCombinePass exampleEnv ⟨⟨4, 4⟩, 3⟩ (outTexture (renderTarget 0 4 4 3))
    (inTexture (renderTarget 0 4 4 3)) 2, ?_, rfl, rfl, rfl, by decide⟩
  rw [passesFor_eq exampleEnv FBloomCSManager.initial (renderTarget 0 4 4 3)
    (renderTarget 0 4 4 3) (by decide) rfl]
  exact buildPasses_getElem?_upsampleCombine exampleEnv ⟨⟨4, 4⟩, 3⟩ _ _ 2 (by decide)
    (by decide)

/-- C7, amended: for two render targets of the same mip count `N ≥ 2` and every pass of
the sequence, a Clear pass reads nothing, a Downsample pass reads input mip `L - 1` and
writes input mip `L`, and an UpsampleCombine pass reads output mip `L` and input mip
`L - 1` and writes output mip `L - 1`, for some `1 ≤ L ≤ N - 1`; the (image, mip level)
the pass writes differs from every (image, mip level) it reads for every Clear and
Downsample pass, and for every pass when the input and output render targets are
different textures. -/
theorem C7_write_view_not_read (env : RenderThreadEnv) (m : FBloomCSManager)
    (o i : UTextureRenderTarget2D) (N : Nat) (hN : 2 ≤ N)
    (ho : o.TextureRHI.NumMips = N) (hi : i.TextureRHI.NumMips = N) :
    ∀ p ∈ passesFor env m o i,
      (p.kind ≠ PassKind.UpsampleCombine →
        p.writes.subresource ∉ p.reads.map MipView.subresource) ∧
      (o.TextureRHI ≠ i.TextureRHI →
        p.writes.subresource ∉ p.reads.map MipView.subresource) ∧
      (p.kind = PassKind.Clear → p.reads = []) ∧
      (p.kind = PassKind.Downsample → ∃ L, 1 ≤ L ∧ L ≤ N - 1 ∧
        p.reads = [⟨inTexture i, L - 1⟩] ∧ p.writes = ⟨inTexture i, L⟩) ∧
      (p.kind = PassKind.UpsampleCombine → ∃ L, 1 ≤ L ∧ L ≤ N - 1 ∧
        p.reads = [⟨outTexture o, L⟩, ⟨inTexture i, L - 1⟩] ∧
        p.writes = ⟨outTexture o, L - 1⟩) := by
  subst ho
  rw [passesFor_eq env m o i hN hi]
  intro p hp
  rcases (mem_buildPasses env _ _ _ p).1 hp with rfl | ⟨L, h1, h2, rfl⟩ | ⟨L, h1, h2, rfl⟩
  · simp [clearPass, Pass.kind, Pass.reads, Pass.writes]
  · simp only at h2
    have hne : (⟨inTexture i, L⟩ : MipView).subresource ∉
        List.map MipView.subresource [⟨inTexture i, L - 1⟩] := by
      simp [MipView.subresource]
      omega
    refine ⟨fun _ => hne, fun _ => hne, ?_, ?_, ?_⟩
    · intro hk; simp [downsamplePass, Pass.kind] at hk
    · intro _; exact ⟨L, h1, by omega, rfl, rfl⟩
    · intro hk; simp [downsamplePass, Pass.kind] at hk
  · simp only at h2
    refine ⟨?_, ?_, ?_, ?_, ?_⟩
    · intro hk; simp [upsampleCombinePass, Pass.kind] at hk
    · intro hd
      simp only [upsampleCombinePass, Pass.reads, Pass.writes, MipView.subresource,
        outTexture, inTexture, List.map_cons, List.map_nil, List.mem_cons,
        List.not_mem_nil, or_false, Prod.mk.injEq, not_or, not_and]
      exact ⟨fun _ => by omega, fun h => absurd h hd⟩
    · intro hk; simp [upsampleCombinePass, Pass.kind] at hk
    · intro hk; simp [upsampleCombinePass, Pass.kind] at hk
    · intro _; exact ⟨L, h1, by omega, rfl, rfl⟩

/-- C7, amended, at a 4×4 pair of two different textures with 3 mips: none of the five
passes writes an (image, mip level) it reads. -/
theorem C7_write_view_not_read_witness :
    2 ≤ 3 ∧
    (renderTarget 0 4 4 3).TextureRHI ≠ (renderTarget 1 4 4 3).TextureRHI ∧
    ∀ p ∈ passesFor exampleEnv FBloomCSManager.initial (renderTarget 0 4 4 3)
        (renderTarget 1 4 4 3),
      p.writes.subresource ∉ p.reads.map MipView.subresource :=
  ⟨by decide, by decide, fun p hp =>
    (C7_write_view_not_read exampleEnv FBloomCSManager.initial (renderTarget 0 4 4 3)
      (renderTarget 1 4 4 3) 3 (by decide) rfl rfl p hp).2.1 (by decide)⟩

/-- C10, as stated, fails when one render target is set as both input and output, which
the guards of `Execute_RenderThread` accept: for a 4×4 target with 3 mips the five passes
write mips 2, 1, 2, 1, 0 of the one image, so mip 2, which the Clear pass wrote, is
written again by a Downsample pass, and mips 2 and 1 each have two writers. -/
theorem C10_same_target_views_written_twice :
    (passesFor exampleEnv FBloomCSManager.initial (renderTarget 0 4 4 3)
        (renderTarget 0 4 4 3)).map (fun p => (p.kind, p.writes.subresource)) =
      [(PassKind.Clear, ((renderTarget 0 4 4 3).TextureRHI, 2)),
       (PassKind.Downsample, ((renderTarget 0 4 4 3).TextureRHI, 1)),
       (PassKind.Downsample, ((renderTarget 0 4 4 3).TextureRHI, 2)),
       (PassKind.UpsampleCombine, ((renderTarget 0 4 4 3).TextureRHI, 1)),
       (PassKind.UpsampleCombine, ((renderTarget 0 4 4 3).TextureRHI, 0))] ∧
    ¬ ((passesFor exampleEnv FBloomCSManager.initial (renderTarget 0 4 4 3)
        (renderTarget 0 4 4 3)).map (fun p => p.writes.subresource)).Nodup := by
  constructor
  · decide
  · decide

/-- C10, amended: for two render targets of the same mip count `N ≥ 2`, every view a pass
reads is input mip 0 or is the view written by a pass strictly earlier in the sequence
(the same registered texture and level, hence the same image and mip level); and when
the input and output render targets are different textures, (output image, mip `N - 1`)
is written by the Clear pass only, (output image, mip `L`) for `L < N - 1` by the
UpsampleCombine pass for `L + 1` only, (input image, mip `L`) by the Downsample pass for
`L ≥ 1` only, and no (image, mip level) is written by two passes. -/
theorem C10_no_read_before_write (env : RenderThreadEnv) (m : FBloomCSManager)
    (o i : UTextureRenderTarget2D) (N : Nat) (hN : 2 ≤ N)
    (ho : o.TextureRHI.NumMips = N) (hi : i.TextureRHI.NumMips = N) :
    (∀ (k : Nat) (p : Pass), (passesFor env m o i)[k]? = some p → ∀ v ∈ p.reads,
      v = ⟨inTexture i, 0⟩ ∨
      ∃ (j : Nat) (q : Pass), j < k ∧ (passesFor env m o i)[j]? = some q ∧ q.writes = v ∧
        q.writes.subresource = v.subresource) ∧
    (o.TextureRHI ≠ i.TextureRHI →
      (∀ q ∈ passesFor env m o i, q.writes.subresource = (o.TextureRHI, N - 1) →
        q.kind = PassKind.Clear) ∧
      (∀ q ∈ passesFor env m o i, ∀ L, L < N - 1 →
        q.writes.subresource = (o.TextureRHI, L) →
        q.kind = PassKind.UpsampleCombine ∧
        q.reads = [⟨outTexture o, L + 1⟩, ⟨inTexture i, L⟩]) ∧
      (∀ q ∈ passesFor env m o i, ∀ L, q.writes.subresource = (i.TextureRHI, L) →
        1 ≤ L ∧ q.kind = PassKind.Downsample ∧ q.reads = [⟨inTexture i, L - 1⟩]) ∧
      ((passesFor env m o i).map (fun p => p.writes.subresource)).Nodup) := by
  subst ho
  rw [passesFor_eq env m o i hN hi]
  refine ⟨?_, ?_⟩
  · intro k p hk v hv
    rcases buildPasses_getElem?_cases env _ _ _ k p hk with
      ⟨_, rfl⟩ | ⟨h1, h2, rfl⟩ | ⟨L, h1, h2, rfl, rfl⟩
    · simp [clearPass, Pass.reads] at hv
    · simp only at h2
      simp only [downsamplePass, Pass.reads, List.mem_singleton] at hv
      subst hv
      by_cases hk1 : k = 1
      · subst hk1; exact Or.inl rfl
      · exact Or.inr ⟨k - 1, _, by omega,
          buildPasses_getElem?_downsample env _ _ _ (k - 1) (by omega)
            (by simp only; omega), rfl, rfl⟩
    · simp only at h2
      simp only [upsampleCombinePass, Pass.reads, List.mem_cons, List.mem_singleton,
        List.not_mem_nil, or_false] at hv
      rcases hv with rfl | rfl
      · by_cases hL : L = o.TextureRHI.NumMips - 1
        · refine Or.inr ⟨0, _, by simp only; omega, buildPasses_getElem?_zero env _ _ _,
            ?_, ?_⟩
          · simp [clearPass, Pass.writes, hL]
          · simp [clearPass, Pass.writes, hL]
        · have h := buildPasses_getElem?_upsampleCombine env
            ⟨o.TextureRHI.Extent, o.TextureRHI.NumMips⟩ (outTexture o) (inTexture i)
            (L + 1) (by omega) (by simp only; omega)
          exact Or.inr ⟨_, _, by simp only; omega, h, rfl, rfl⟩
      · by_cases hL : L = 1
        · subst hL; exact Or.inl rfl
        · exact Or.inr ⟨L - 1, _, by simp only; omega,
            buildPasses_getElem?_downsample env _ _ _ (L - 1) (by omega)
              (by simp only; omega), rfl, rfl⟩
  · intro hd
    have hd' : i.TextureRHI ≠ o.TextureRHI := fun h => hd h.symm
    refine ⟨?_, ?_, ?_, ?_⟩
    · intro q hq hw
      rcases (mem_buildPasses env _ _ _ q).1 hq with
        rfl | ⟨L, h1, h2, rfl⟩ | ⟨L, h1, h2, rfl⟩
      · rfl
      · simp only [downsamplePass, Pass.writes, MipView.subresource, inTexture,
          Prod.mk.injEq] at hw
        exact absurd hw.1 hd'
      · simp only at h2
        simp only [upsampleCombinePass, Pass.writes, MipView.subresource, outTexture,
          Prod.mk.injEq] at hw
        omega
    · intro q hq L hL hw
      rcases (mem_buildPasses env _ _ _ q).1 hq with
        rfl | ⟨K, h1, h2, rfl⟩ | ⟨K, h1, h2, rfl⟩
      · simp only [clearPass, Pass.writes, MipView.subresource, outTexture,
          Prod.mk.injEq] at hw
        omega
      · simp only [downsamplePass, Pass.writes, MipView.subresource, inTexture,
          Prod.mk.injEq] at hw
        exact absurd hw.1 hd'
      · simp only [upsampleCombinePass, Pass.writes, MipView.subresource, outTexture,
          Prod.mk.injEq] at hw
        have hK : K = L + 1 := by omega
        subst hK
        exact ⟨rfl, rfl⟩
    · intro q hq L hw
      rcases (mem_buildPasses env _ _ _ q).1 hq with
        rfl | ⟨K, h1, h2, rfl⟩ | ⟨K, h1, h2, rfl⟩
      · simp only [clearPass, Pass.writes, MipView.subresource, outTexture,
          Prod.mk.injEq] at hw
        exact absurd hw.1 hd
      · simp only [downsamplePass, Pass.writes, MipView.subresource, inTexture,
          Prod.mk.injEq] at hw
        have hK : K = L := hw.2
        subst hK
        exact ⟨h1, rfl, rfl⟩
      · simp only [upsampleCombinePass, Pass.writes, MipView.subresource, outTexture,
          Prod.mk.injEq] at hw
        exact absurd hw.1 hd
    · rw [buildPasses_eq]
      simp only [List.map_cons, List.map_append, List.map_map]
      refine List.nodup_cons.2 ⟨?_, List.Nodup.append ?_ ?_ ?_⟩
      · simp only [List.mem_append, List.mem_map, List.mem_reverse, List.mem_range'_1,
          Function.comp_apply, clearPass, downsamplePass, upsampleCombinePass, Pass.writes,
          MipView.subresource, outTexture, inTexture, Prod.mk.injEq]
        rintro (⟨L, _, h, _⟩ | ⟨L, ⟨h1, h2⟩, _, h⟩)
        · exact hd' h
        · omega
      · refine List.Nodup.map_on ?_ (List.nodup_range' 1 _)
        intro x _ y _ h
        simp only [Function.comp_apply, downsamplePass, Pass.writes, MipView.subresource,
          Prod.mk.injEq] at h
        exact h.2
      · refine List.Nodup.map_on ?_ (List.nodup_reverse.2 (List.nodup_range' 1 _))
        intro x hx y hy h
        simp only [List.mem_reverse, List.mem_range'_1] at hx hy
        simp only [Function.comp_apply, upsampleCombinePass, Pass.writes,
          MipView.subresource, Prod.mk.injEq] at h
        omega
      · intro v hdn hup
        simp only [List.mem_map, Function.comp_apply, downsamplePass, upsampleCombinePass,
          Pass.writes, MipView.subresource, outTexture, inTexture] at hdn hup
        rcases hdn with ⟨_, _, rfl⟩
        rcases hup with ⟨_, _, h⟩
        simp only [Prod.mk.injEq] at h
        exact hd h.1

/-- C10, amended, at a 4×4 pair of two different textures with 3 mips: the five passes
write five different (image, mip level) pairs. -/
theorem C10_no_read_before_write_witness :
    2 ≤ 3 ∧
    (renderTarget 0 4 4 3).TextureRHI ≠ (renderTarget 1 4 4 3).TextureRHI ∧
    ((passesFor exampleEnv FBloomCSManager.initial (renderTarget 0 4 4 3)
        (renderTarget 1 4 4 3)).map (fun p => p.writes.subresource)).Nodup :=
  ⟨by decide, by decide,
   ((C10_no_read_before_write exampleEnv FBloomCSManager.initial
      (renderTarget 0 4 4 3) (renderTarget 1 4 4 3) 3 (by decide) rfl rfl).2
        (by decide)).2.2.2⟩

/-! ## The manager across the two threads -/

/-- A run of `Execute_RenderThread` changes neither the cached parameters nor the flag. -/
theorem Execute_RenderThread_keeps_params (env : RenderThreadEnv) (m : FBloomCSManager) :
    (m.Execute_RenderThread env).1.cachedParams = m.cachedParams ∧
    (m.Execute_RenderThread env).1.bCachedParamsAreValid = m.bCachedParamsAreValid := by
  unfold FBloomCSManager.Execute_RenderThread
  split
  · simp only
    split_ifs <;> exact ⟨rfl, rfl⟩
  · exact ⟨rfl, rfl⟩

/-- A step of either thread keeps a true flag true. -/
theorem step_keeps_valid (env : RenderThreadEnv) (s : BloomSystem) (op : Op)
    (h : s.manager.bCachedParamsAreValid = true) :
    (s.step env op).manager.bCachedParamsAreValid = true := by
  cases op with
  | UpdateParameters params => rfl
  | Render => exact h
  | runRenderCommand =>
    rcases s with ⟨m, q, e⟩
    cases q with
    | nil => exact h
    | cons c rest =>
      cases c
      simp only [BloomSystem.step, BloomSystem.runRenderCommand]
      rw [(Execute_RenderThread_keeps_params env m).2]
      exact h

/-- Every run keeps a true flag true. -/
theorem run_keeps_valid (env : RenderThreadEnv) (ops : List Op) :
    ∀ s : BloomSystem, s.manager.bCachedParamsAreValid = true →
      (s.run env ops).manager.bCachedParamsAreValid = true := by
  induction ops with
  | nil => intro s h; exact h
  | cons op ops ih =>
    intro s h
    exact ih (s.step env op) (step_keeps_valid env s op h)

/-- Running the commands of a prefix of the queue leaves the rest of the queue and adds
one record per command run. -/
theorem foldl_runRenderCommand (env : RenderThreadEnv) (l : List RenderCommand) :
    ∀ (s : BloomSystem) (rest : List RenderCommand), s.renderQueue = l ++ rest →
      (l.foldl (fun t _ => t.runRenderCommand env) s).renderQueue = rest ∧
      (l.foldl (fun t _ => t.runRenderCommand env) s).executed.length =
        s.executed.length + l.length := by
  induction l with
  | nil => intro s rest h; exact ⟨h, rfl⟩
  | cons c l ih =>
    intro s rest h
    rcases s with ⟨m, q, e⟩
    simp only at h
    subst h
    cases c
    have h' := ih ⟨(m.Execute_RenderThread env).1, l ++ rest,
      e ++ [(m.Execute_RenderThread env).2]⟩ rest rfl
    have hstep : BloomSystem.runRenderCommand env
        ⟨m, RenderCommand.ComputeBloomRT :: l ++ rest, e⟩ =
        ⟨(m.Execute_RenderThread env).1, l ++ rest,
          e ++ [(m.Execute_RenderThread env).2]⟩ := rfl
    rw [List.foldl_cons, hstep]
    refine ⟨h'.1, ?_⟩
    rw [h'.2]
    simp
    omega

/-- C8: `UpdateParameters` replaces the whole cached block by its argument and sets the
flag, whatever the argument (null pointers included); the manager starts with the flag
false; once parameters have been handed over the flag is true and stays true under
every later sequence of `UpdateParameters`, `Render` and render-thread executions; and
`Execute_RenderThread` changes neither the cached parameters nor the flag. -/
theorem C8_validity_flag (env : RenderThreadEnv) :
    (∀ (m : FBloomCSManager) (params : FBloomCSParameters),
      (m.UpdateParameters params).cachedParams = params ∧
      (m.UpdateParameters params).bCachedParamsAreValid = true) ∧
    BloomSystem.initial.manager.bCachedParamsAreValid = false ∧
    (∀ (s : BloomSystem) (params : FBloomCSParameters),
      (s.UpdateParameters params).manager.bCachedParamsAreValid = true) ∧
    (∀ (s : BloomSystem) (params : FBloomCSParameters) (ops : List Op),
      ((s.UpdateParameters params).run env ops).manager.bCachedParamsAreValid = true) ∧
    (∀ m : FBloomCSManager,
      (m.Execute_RenderThread env).1.cachedParams = m.cachedParams ∧
      (m.Execute_RenderThread env).1.bCachedParamsAreValid = m.bCachedParamsAreValid) :=
  ⟨fun _ _ => ⟨rfl, rfl⟩, rfl, fun _ _ => rfl,
   fun s params ops => run_keeps_valid env ops (s.UpdateParameters params) rfl,
   Execute_RenderThread_keeps_params env⟩

/-- C9, as stated, fails: after `UpdateParameters(p1)`, `Render()`, `UpdateParameters(p2)`
with `p1` a 4×4 pair with 3 mips and `p2` two null pointers, the one queued command
runs as a no-op, with the effects of `p2` (no pass), not with the five passes of `p1`. -/
theorem C9_first_request_observes_later_parameters :
    ((((BloomSystem.initial.UpdateParameters
        ⟨some (renderTarget 0 4 4 3), some (renderTarget 1 4 4 3)⟩).Render).UpdateParameters
        ⟨none, none⟩).drain exampleEnv).executed.map (fun r => r.passes.length) = [0] ∧
    ((FBloomCSManager.initial.UpdateParameters
        ⟨some (renderTarget 0 4 4 3), some (renderTarget 1 4 4 3)⟩).Execute_RenderThread
        exampleEnv).2.passes.length = 5 ∧
    ((((BloomSystem.initial.UpdateParameters
        ⟨some (renderTarget 0 4 4 3), some (renderTarget 1 4 4 3)⟩).Render).UpdateParameters
        ⟨none, none⟩).drain exampleEnv).executed ≠
      [((FBloomCSManager.initial.UpdateParameters
        ⟨some (renderTarget 0 4 4 3), some (renderTarget 1 4 4 3)⟩).Execute_RenderThread
        exampleEnv).2] := by
  refine ⟨by decide, by decide, ?_⟩
  intro h
  have h' := congrArg (fun l => l.map (fun r => r.passes.length)) h
  revert h'
  decide

/-- C9, amended: the queued command captures only the manager, so the parameter block
reaches the render thread through the manager's cached block. After
`UpdateParameters(p1)`, `Render()`, `UpdateParameters(p2)` on an empty queue, draining
the queue runs `Execute_RenderThread` once, on the manager holding `p2`; and draining
any queue runs one execution per queued command and leaves the queue empty. -/
theorem C9_request_reads_cached_block (env : RenderThreadEnv) :
    (∀ (m : FBloomCSManager) (e : List RenderThreadEffects) (p1 p2 : FBloomCSParameters),
      ((((⟨m, [], e⟩ : BloomSystem).UpdateParameters p1).Render).UpdateParameters p2).drain env
        = ⟨((m.UpdateParameters p2).Execute_RenderThread env).1, [],
            e ++ [((m.UpdateParameters p2).Execute_RenderThread env).2]⟩) ∧
    (∀ s : BloomSystem, (s.Render).renderQueue = s.renderQueue ++ [RenderCommand.ComputeBloomRT]) ∧
    (∀ s : BloomSystem,
      (s.drain env).renderQueue = [] ∧
      (s.drain env).executed.length = s.executed.length + s.renderQueue.length) :=
  ⟨fun _ _ _ _ => rfl, fun _ => rfl,
   fun s => foldl_runRenderCommand env s.renderQueue s [] (by simp)⟩

/-! ## Dispatch sizes -/

/-- The rounded-up quotient of a positive size by a positive tile is at least 1 and
covers the size. -/
theorem DivideAndRoundUp_covers (a b : Nat) (ha : 1 ≤ a) (hb : 0 < b) :
    1 ≤ DivideAndRoundUp a b ∧ a ≤ DivideAndRoundUp a b * b := by
  unfold DivideAndRoundUp
  have h1 := Nat.div_add_mod (a + b - 1) b
  have h2 := Nat.mod_lt (a + b - 1) hb
  have h3 : b * ((a + b - 1) / b) = (a + b - 1) / b * b := Nat.mul_comm _ _
  refine ⟨(Nat.le_div_iff_mul_le hb).2 (by omega), by omega⟩

/-- A mip dimension is at least 1. -/
theorem one_le_mipDim (baseDim level : Nat) : 1 ≤ mipDim baseDim level :=
  Nat.le_max_right _ _

/-- Every pass of a run is dispatched for the mip of the OUTPUT texture at the level the
pass writes, whichever texture it writes: that is the size all three blocks compute from
`TextureDesc`. -/
theorem groupCount_from_output_extent (env : RenderThreadEnv) (m : FBloomCSManager)
    (o i : UTextureRenderTarget2D) (ho : 2 ≤ o.TextureRHI.NumMips)
    (hi : i.TextureRHI.NumMips = o.TextureRHI.NumMips) :
    ∀ p ∈ passesFor env m o i,
      p.GroupCount =
        GetGroupCount ⟨mipDim o.TextureRHI.Extent.X p.writes.MipLevel,
          mipDim o.TextureRHI.Extent.Y p.writes.MipLevel⟩ env.kGolden2DGroupSize := by
  rw [passesFor_eq env m o i ho hi]
  intro p hp
  rcases (mem_buildPasses env _ _ _ p).1 hp with rfl | ⟨L, _, _, rfl⟩ | ⟨L, _, _, rfl⟩ <;>
    rfl

/-- The mip a pass writes has the size of the output texture's mip at that level when the
two render targets have the same base extent. -/
theorem writes_size_of_equal_extents (env : RenderThreadEnv) (m : FBloomCSManager)
    (o i : UTextureRenderTarget2D) (ho : 2 ≤ o.TextureRHI.NumMips)
    (hi : i.TextureRHI.NumMips = o.TextureRHI.NumMips)
    (hext : i.TextureRHI.Extent = o.TextureRHI.Extent) :
    ∀ p ∈ passesFor env m o i,
      p.writes.size =
        ⟨mipDim o.TextureRHI.Extent.X p.writes.MipLevel,
          mipDim o.TextureRHI.Extent.Y p.writes.MipLevel⟩ := by
  rw [passesFor_eq env m o i ho hi]
  intro p hp
  rcases (mem_buildPasses env _ _ _ p).1 hp with rfl | ⟨L, _, _, rfl⟩ | ⟨L, _, _, rfl⟩
  · rfl
  · simp only [downsamplePass, Pass.writes, MipView.size, inTexture, hext]
  · rfl

/-- For two render targets of the same base extent (and the same mip count at least 2),
every pass is dispatched for the mip it writes: the group count per axis is the
rounded-up quotient of that mip's size by the tile, at least 1, and covers the mip. -/
theorem groupCount_of_equal_extents (env : RenderThreadEnv) (m : FBloomCSManager)
    (o i : UTextureRenderTarget2D) (ho : 2 ≤ o.TextureRHI.NumMips)
    (hi : i.TextureRHI.NumMips = o.TextureRHI.NumMips)
    (hext : i.TextureRHI.Extent = o.TextureRHI.Extent) (htile : 0 < env.kGolden2DGroupSize) :
    ∀ p ∈ passesFor env m o i,
      p.GroupCount = GetGroupCount p.writes.size env.kGolden2DGroupSize ∧
      1 ≤ p.writes.size.X ∧ 1 ≤ p.writes.size.Y ∧
      1 ≤ p.GroupCount.X ∧ 1 ≤ p.GroupCount.Y ∧
      p.writes.size.X ≤ p.GroupCount.X * env.kGolden2DGroupSize ∧
      p.writes.size.Y ≤ p.GroupCount.Y * env.kGolden2DGroupSize := by
  intro p hp
  have hg := groupCount_from_output_extent env m o i ho hi p hp
  have hs := writes_size_of_equal_extents env m o i ho hi hext p hp
  have hx := DivideAndRoundUp_covers _ _ (one_le_mipDim o.TextureRHI.Extent.X
    p.writes.MipLevel) htile
  have hy := DivideAndRoundUp_covers _ _ (one_le_mipDim o.TextureRHI.Extent.Y
    p.writes.MipLevel) htile
  rw [hs, hg]
  exact ⟨rfl, one_le_mipDim _ _, one_le_mipDim _ _, hx.1, hy.1, hx.2, hy.2⟩

/-- The bindings of the downsample chain: for two render targets of the same mip count
`N ≥ 2` and every level `1 ≤ L ≤ N - 1`, the pass at position `L` is the Downsample
pass that reads input mip `L - 1` and writes input mip `L`, and its texel size is the
reciprocal of the size of mip `L` of the OUTPUT texture; no pass binds mip 0 of the
input registration for writing, and a Downsample pass binds views of the input
registration only; when the two render targets are different textures, no pass writes
(input image, mip 0) and no Downsample pass reads or writes the output image. -/
theorem downsample_bindings (env : RenderThreadEnv) (m : FBloomCSManager)
    (o i : UTextureRenderTarget2D) (N : Nat) (hN : 2 ≤ N)
    (ho : o.TextureRHI.NumMips = N) (hi : i.TextureRHI.NumMips = N) :
    (∀ L, 1 ≤ L → L ≤ N - 1 →
      ∃ p, (passesFor env m o i)[L]? = some p ∧
        p.kind = PassKind.Downsample ∧
        p.reads = [⟨inTexture i, L - 1⟩] ∧
        p.writes = ⟨inTexture i, L⟩ ∧
        p.TexelSize = some ⟨1 / (mipDim o.TextureRHI.Extent.X L : ℚ),
          1 / (mipDim o.TextureRHI.Extent.Y L : ℚ)⟩) ∧
    (∀ p ∈ passesFor env m o i, p.writes ≠ ⟨inTexture i, 0⟩) ∧
    (∀ p ∈ passesFor env m o i, p.kind = PassKind.Downsample →
      p.writes.Texture = inTexture i ∧ ∀ v ∈ p.reads, v.Texture = inTexture i) ∧
    (o.TextureRHI ≠ i.TextureRHI →
      (∀ p ∈ passesFor env m o i, p.writes.subresource ≠ (i.TextureRHI, 0)) ∧
      (∀ p ∈ passesFor env m o i, p.kind = PassKind.Downsample →
        p.writes.subresource.1 ≠ o.TextureRHI ∧
        ∀ v ∈ p.reads, v.subresource.1 ≠ o.TextureRHI)) := by
  subst ho
  rw [passesFor_eq env m o i hN hi]
  refine ⟨?_, ?_, ?_, ?_⟩
  · intro L h1 h2
    exact ⟨_, buildPasses_getElem?_downsample env _ _ _ L h1 (by simp only; omega),
      rfl, rfl, rfl, rfl⟩
  · intro p hp
    rcases (mem_buildPasses env _ _ _ p).1 hp with rfl | ⟨L, h1, _, rfl⟩ | ⟨L, _, _, rfl⟩
    · simp [clearPass, Pass.writes, outTexture, inTexture]
    · simp [downsamplePass, Pass.writes]
      omega
    · simp [upsampleCombinePass, Pass.writes, outTexture, inTexture]
  · intro p hp hk
    rcases (mem_buildPasses env _ _ _ p).1 hp with rfl | ⟨L, _, _, rfl⟩ | ⟨L, _, _, rfl⟩
    · simp [clearPass, Pass.kind] at hk
    · simp [downsamplePass, Pass.writes, Pass.reads]
    · simp [upsampleCombinePass, Pass.kind] at hk
  · intro hd
    have hd' : i.TextureRHI ≠ o.TextureRHI := fun h => hd h.symm
    refine ⟨?_, ?_⟩
    · intro p hp
      rcases (mem_buildPasses env _ _ _ p).1 hp with
        rfl | ⟨L, h1, _, rfl⟩ | ⟨L, _, _, rfl⟩
      · simp [clearPass, Pass.writes, MipView.subresource, outTexture, hd]
      · simp [downsamplePass, Pass.writes, MipView.subresource]
        intro _
        omega
      · simp [upsampleCombinePass, Pass.writes, MipView.subresource, outTexture, hd]
    · intro p hp hk
      rcases (mem_buildPasses env _ _ _ p).1 hp with
        rfl | ⟨L, _, _, rfl⟩ | ⟨L, _, _, rfl⟩
      · simp [clearPass, Pass.kind] at hk
      · simp [downsamplePass, Pass.writes, Pass.reads, MipView.subresource, inTexture, hd']
      · simp [upsampleCombinePass, Pass.kind] at hk

/-- C5 at an output of 256×128 and an input of 256×256, two different textures of 9 mips
each, which pass the validation: the Downsample pass for level 1 reads input mip 0 and
writes input mip 1, whose size is 128×128, but its texel size is (1/128, 1/64), the
reciprocal of the size of OUTPUT mip 1, not (1/128, 1/128). -/
theorem C5_texel_size_of_output_mip :
    ∃ p, (passesFor exampleEnv FBloomCSManager.initial (renderTarget 0 256 128 9)
        (renderTarget 1 256 256 9))[1]? = some p ∧
      p.kind = PassKind.Downsample ∧
      p.reads = [⟨inTexture (renderTarget 1 256 256 9), 0⟩] ∧
      p.writes = ⟨inTexture (renderTarget 1 256 256 9), 1⟩ ∧
      p.writes.size = ⟨128, 128⟩ ∧
      p.TexelSize = some ⟨1 / 128, 1 / 64⟩ ∧
      p.TexelSize ≠ some ⟨1 / 128, 1 / 128⟩ := by
  refine ⟨downsamplePass exampleEnv ⟨⟨256, 128⟩, 9⟩ (inTexture (renderTarget 1 256 256 9)) 1,
    ?_, rfl, rfl, rfl, by decide, ?_, ?_⟩
  · rw [passesFor_eq exampleEnv FBloomCSManager.initial (renderTarget 0 256 128 9)
      (renderTarget 1 256 256 9) (by decide) rfl]
    exact buildPasses_getElem?_downsample _ _ _ _ 1 (by decide) (by decide)
  · simp [downsamplePass, Pass.TexelSize, DestTextureSize]
  · simp [downsamplePass, Pass.TexelSize, DestTextureSize]

/-- C6 at an output of 256×128 and an input of 256×256, two different textures of 9 mips
each, with tile 8: the Downsample pass for level 1 writes input mip 1, whose size is
128×128, but is dispatched with 16×8 groups, the count for OUTPUT mip 1 (128×64), not
16×16; the 8 groups of 8 rows cover 64 of the 128 rows. -/
theorem C6_downsample_sized_from_output :
    ∃ p, (passesFor exampleEnv FBloomCSManager.initial (renderTarget 0 256 128 9)
        (renderTarget 1 256 256 9))[1]? = some p ∧
      p.kind = PassKind.Downsample ∧
      p.writes = ⟨inTexture (renderTarget 1 256 256 9), 1⟩ ∧
      p.writes.size = ⟨128, 128⟩ ∧
      p.GroupCount = ⟨16, 8, 1⟩ ∧
      GetGroupCount p.writes.size 8 = ⟨16, 16, 1⟩ ∧
      p.GroupCount.Y * 8 < p.writes.size.Y := by
  refine ⟨downsamplePass exampleEnv ⟨⟨256, 128⟩, 9⟩ (inTexture (renderTarget 1 256 256 9)) 1,
    ?_, rfl, rfl, by decide, by decide, by decide, by decide⟩
  rw [passesFor_eq exampleEnv FBloomCSManager.initial (renderTarget 0 256 128 9)
    (renderTarget 1 256 256 9) (by decide) rfl]
  exact buildPasses_getElem?_downsample _ _ _ _ 1 (by decide) (by decide)

end ComputeBloomRT
